import Mathlib

/-!
Verification of the pysrim `srim/output.py` collision reader.

The Python source is shallowly embedded:

* files are lists of bytes (`List Nat`), decoded strings are lists of
  characters (`List Char`);
* `buffered_findall` (the chunked pattern locator, output.py lines 357-379)
  is modelled by `bfaLoop`/`buffered_findall` below, with an explicit fuel
  parameter standing for the number of iterations of the Python
  `while True` loop (the Python loop has no bound of its own; `none`
  means the loop did not finish within the given fuel);
* the regex search `re.finditer(string, buffer)` is modelled as literal
  non-overlapping leftmost matching (`findIterAux`); the fixed marker
  `b"  Ion    Energy"` contains no regex metacharacters, so for it the
  two notions coincide;
* `Collision.__init__` / `__len__` / `__getitem__` and the record parser
  `_read_ion` / `_read_cascade` are modelled further below, with Python
  exceptions reified in an explicit error type.
-/

/-- The characters of a string literal, used to write `List Char` constants. -/
def chars (s : String) : List Char :=
  s.data

/-- True when `pat` occurs in `buf` starting at byte offset `r`
(literal match, the reference notion of occurrence). -/
def matchB (pat buf : List Nat) (r : Nat) : Bool :=
  (buf.drop r).take pat.length == pat

/-- All offsets at which `pat` occurs in `file`, in increasing order.
This is the independent whole-file reference scan the spec compares
`buffered_findall` against. -/
def occList (pat file : List Nat) : List Nat :=
  (List.range (file.length + 1)).filter (fun r => matchB pat file r)

/-- A pattern is border-free when no proper nonempty prefix is also a
suffix; such a pattern cannot overlap itself, so non-overlapping regex
matching finds every occurrence. -/
def borderFree (pat : List Nat) : Prop :=
  ∀ m < pat.length, 0 < m → pat.take m ≠ pat.drop (pat.length - m)

instance (pat : List Nat) : Decidable (borderFree pat) := by
  unfold borderFree; infer_instance

/-- Model of `re.finditer(string, buffer)` for a literal pattern:
leftmost non-overlapping match offsets, scanning from offset `i`.
After a match at `j` the scan resumes at `j + len(pat)` (at `j + 1`
for an empty pattern, matching Python's zero-width match behaviour).
`fuel` bounds the scan; `buf.length + 1` is always enough. -/
def findIterAux (pat buf : List Nat) : Nat → Nat → List Nat
  | _, 0 => []
  | i, fuel + 1 =>
    if i + pat.length ≤ buf.length then
      if matchB pat buf i then
        i :: findIterAux pat buf (i + max pat.length 1) fuel
      else
        findIterAux pat buf (i + 1) fuel
    else
      []

/-- All matches of `pat` in `buf` (model of `re.finditer`). -/
def findIter (pat buf : List Nat) : List Nat :=
  findIterAux pat buf 0 (buf.length + 1)

/-- The window size `BUFFERSIZE = 4096` of `buffered_findall`. -/
def BUFFERSIZE : Nat := 4096

/-- One `while True` iteration of `buffered_findall` (output.py 368-379),
with `pos` the file cursor (`f.tell()`) and `acc` the `positions` list.

Per iteration the code seeks back by `overlap = len(string) - 1` when
`overlap <= f.tell() < filesize` (Python int arithmetic: for the empty
pattern `overlap` is `-1` and the seek moves one byte forward), reads a
window of at most 4096 bytes, and appends `read_start + match_offset`
for every match inside the window; an empty read returns `positions`.

`seekBack` is the seek before each window read (output.py 369-370): when
`overlap <= f.tell() < filesize`, with `overlap = len(string) - 1` a
Python int, the cursor moves back by `overlap` bytes. -/
def seekBack (file pat : List Nat) (pos : Nat) : Nat :=
  if (pat.length : Int) - 1 ≤ (pos : Int) ∧ pos < file.length then
    ((pos : Int) - ((pat.length : Int) - 1)).toNat
  else
    pos

def bfaLoop (file pat : List Nat) : Nat → Nat → List Nat → Option (List Nat)
  | 0, _, _ => none
  | fuel + 1, pos, acc =>
    let p := seekBack file pat pos
    let buf := (file.drop p).take BUFFERSIZE
    if buf = [] then
      some acc
    else
      bfaLoop file pat fuel (p + buf.length)
        (acc ++ (findIter pat buf).map (fun r => p + r))

/-- Model of `buffered_findall(filename, string, start)`: the cursor
starts at `start` (the code seeks there when `start > 0`, which is the
same as starting at `start`). -/
def buffered_findall (file pat : List Nat) (start fuel : Nat) : Option (List Nat) :=
  bfaLoop file pat fuel start []

/-- The fixed 15-byte marker `b"  Ion    Energy"` used by
`Collision.__init__` to index ion records. -/
def marker15 : List Nat :=
  (chars "  Ion    Energy").map Char.toNat

/-- The record index built at `Collision.__init__`:
`self._ion_index = buffered_findall(filename, b"  Ion    Energy")`.
The fuel `file.length + 2` is always sufficient (`bfaLoop_isSome`),
so the `getD` default is never taken. -/
def collisionIndex (file : List Nat) : List Nat :=
  (buffered_findall file marker15 0 (file.length + 2)).getD []

/-- Model of `Collision.__len__`: `len(self._ion_index) - 1`, as the
integer the dunder returns (Python's `len()` built-in would additionally
raise `ValueError` if this integer is negative). -/
def collisionLen (file : List Nat) : Int :=
  (collisionIndex file).length - 1

/-! ### Facts about literal matching and `findIter` -/

theorem matchB_len {pat buf : List Nat} {r : Nat} (hL : 1 ≤ pat.length)
    (h : matchB pat buf r = true) : r + pat.length ≤ buf.length := by
  unfold matchB at h
  rw [beq_iff_eq] at h
  have hlen := congrArg List.length h
  simp only [List.length_take, List.length_drop] at hlen
  omega

theorem matchB_getElem {pat buf : List Nat} {a : Nat} (h : matchB pat buf a = true)
    {j : Nat} (hj : j < pat.length) : pat[j]? = buf[a + j]? := by
  unfold matchB at h
  rw [beq_iff_eq] at h
  conv_lhs => rw [← h]
  rw [List.getElem?_take, if_pos hj, List.getElem?_drop]

/-- A border-free pattern cannot match at two offsets closer than its
length: two such matches would exhibit a nonempty proper border. -/
theorem no_overlap {pat buf : List Nat} (hbf : borderFree pat) {a b : Nat}
    (ha : matchB pat buf a = true) (hb : matchB pat buf b = true)
    (hab : a < b) (hba : b < a + pat.length) : False := by
  have hd : b - a < pat.length := by omega
  have hd0 : 0 < b - a := by omega
  apply hbf (pat.length - (b - a)) (by omega) (by omega)
  have hLd : pat.length - (pat.length - (b - a)) = b - a := by omega
  rw [hLd]
  apply List.ext_getElem?
  intro k
  rw [List.getElem?_take, List.getElem?_drop]
  by_cases hk : k < pat.length - (b - a)
  · rw [if_pos hk]
    have h1 : pat[k]? = buf[b + k]? := matchB_getElem hb (by omega)
    have h2 : pat[(b - a) + k]? = buf[a + ((b - a) + k)]? := matchB_getElem ha (by omega)
    have h3 : a + ((b - a) + k) = b + k := by omega
    rw [h1, h2, h3]
  · rw [if_neg hk]
    symm
    rw [List.getElem?_eq_none_iff]
    omega

theorem take_drop_window {file : List Nat} {p r W L : Nat}
    (h : r + L ≤ ((file.drop p).take W).length) :
    (((file.drop p).take W).drop r).take L = (file.drop (p + r)).take L := by
  have hWr : L ≤ W - r := by
    simp only [List.length_take, List.length_drop] at h
    omega
  rw [List.drop_take, List.take_take, List.drop_drop, min_eq_left hWr]

theorem matchB_window {file pat : List Nat} {p r : Nat}
    (h : r + pat.length ≤ ((file.drop p).take BUFFERSIZE).length) :
    matchB pat ((file.drop p).take BUFFERSIZE) r = matchB pat file (p + r) := by
  unfold matchB
  rw [take_drop_window h]

theorem findIterAux_sound {pat buf : List Nat} :
    ∀ {fuel i r}, r ∈ findIterAux pat buf i fuel →
      i ≤ r ∧ r + pat.length ≤ buf.length ∧ matchB pat buf r = true := by
  intro fuel
  induction fuel with
  | zero => intro i r h; simp [findIterAux] at h
  | succ fuel ih =>
    intro i r h
    unfold findIterAux at h
    by_cases hg : i + pat.length ≤ buf.length
    · rw [if_pos hg] at h
      by_cases hm : matchB pat buf i = true
      · rw [if_pos hm] at h
        rcases List.mem_cons.mp h with rfl | h'
        · exact ⟨Nat.le_refl _, hg, hm⟩
        · obtain ⟨h1, h2, h3⟩ := ih h'
          exact ⟨by omega, h2, h3⟩
      · rw [if_neg hm] at h
        obtain ⟨h1, h2, h3⟩ := ih h
        exact ⟨by omega, h2, h3⟩
    · rw [if_neg hg] at h
      simp at h

theorem findIterAux_pairwise {pat buf : List Nat} :
    ∀ {fuel i}, List.Pairwise (· < ·) (findIterAux pat buf i fuel) := by
  intro fuel
  induction fuel with
  | zero => intro i; simp [findIterAux]
  | succ fuel ih =>
    intro i
    unfold findIterAux
    by_cases hg : i + pat.length ≤ buf.length
    · rw [if_pos hg]
      by_cases hm : matchB pat buf i = true
      · rw [if_pos hm]
        refine List.Pairwise.cons ?_ ih
        intro r hr
        have := (findIterAux_sound hr).1
        omega
      · rw [if_neg hm]; exact ih
    · rw [if_neg hg]; simp

theorem findIterAux_complete {pat buf : List Nat} (hbf : borderFree pat)
    (hL : 1 ≤ pat.length) :
    ∀ {fuel i r}, buf.length + 1 ≤ fuel + i → i ≤ r → matchB pat buf r = true →
      r ∈ findIterAux pat buf i fuel := by
  intro fuel
  induction fuel with
  | zero =>
    intro i r hfuel hir hm
    have := matchB_len hL hm
    omega
  | succ fuel ih =>
    intro i r hfuel hir hm
    have hrlen := matchB_len hL hm
    unfold findIterAux
    rw [if_pos (by omega)]
    by_cases hmi : matchB pat buf i = true
    · rw [if_pos hmi]
      rcases Nat.eq_or_lt_of_le hir with rfl | hlt
      · exact List.mem_cons_self _ _
      · refine List.mem_cons_of_mem _ (ih (by omega) ?_ hm)
        by_contra hcon
        exact no_overlap hbf hmi hm hlt (by omega)
    · rw [if_neg hmi]
      have : i ≠ r := fun he => hmi (he ▸ hm)
      exact ih (by omega) (by omega) hm

theorem findIter_sound {pat buf : List Nat} {r : Nat} (h : r ∈ findIter pat buf) :
    r + pat.length ≤ buf.length ∧ matchB pat buf r = true :=
  ⟨(findIterAux_sound h).2.1, (findIterAux_sound h).2.2⟩

theorem findIter_pairwise {pat buf : List Nat} :
    List.Pairwise (· < ·) (findIter pat buf) :=
  findIterAux_pairwise

theorem findIter_complete {pat buf : List Nat} (hbf : borderFree pat)
    (hL : 1 ≤ pat.length) {r : Nat} (hm : matchB pat buf r = true) :
    r ∈ findIter pat buf :=
  findIterAux_complete hbf hL (by omega) (Nat.zero_le r) hm

theorem findIter_eq_nil {pat buf : List Nat} (h : buf.length < pat.length) :
    findIter pat buf = [] := by
  unfold findIter findIterAux
  rw [if_neg (by omega)]

/-! ### Facts about the chunked locator loop -/

theorem bfaLoop_succ (file pat : List Nat) (fuel pos : Nat) (acc : List Nat) :
    bfaLoop file pat (fuel + 1) pos acc =
      if (file.drop (seekBack file pat pos)).take BUFFERSIZE = [] then some acc
      else bfaLoop file pat fuel
        (seekBack file pat pos + ((file.drop (seekBack file pat pos)).take BUFFERSIZE).length)
        (acc ++ (findIter pat ((file.drop (seekBack file pat pos)).take BUFFERSIZE)).map
          (fun r => seekBack file pat pos + r)) := rfl

theorem buf_length_eq (file : List Nat) (p : Nat) :
    ((file.drop p).take BUFFERSIZE).length = min BUFFERSIZE (file.length - p) := by
  rw [List.length_take, List.length_drop]

theorem seekBack_lt_len {file pat : List Nat} {pos : Nat}
    (hne : (file.drop (seekBack file pat pos)).take BUFFERSIZE ≠ []) :
    seekBack file pat pos < file.length := by
  by_contra hc
  apply hne
  have : file.drop (seekBack file pat pos) = [] :=
    List.drop_eq_nil_iff.mpr (by omega)
  rw [this, List.take_nil]

theorem seekBack_le_pos (file pat : List Nat) (pos : Nat) :
    seekBack file pat pos ≤ pos + 1 := by
  unfold seekBack
  split <;> omega

theorem lt_seekBack_of_done {file pat : List Nat} {pos a : Nat}
    (hne : (file.drop (seekBack file pat pos)).take BUFFERSIZE ≠ [])
    (ha : a + pat.length ≤ pos) : a < seekBack file pat pos := by
  have hlt := seekBack_lt_len hne
  by_cases hc : ((pat.length : Int) - 1 ≤ (pos : Int) ∧ pos < file.length)
  · simp only [seekBack, if_pos hc] at hlt ⊢
    omega
  · simp only [seekBack, if_neg hc] at hlt ⊢
    rw [not_and_or] at hc
    rcases hc with hc | hc
    · omega
    · omega

theorem lt_newpos {file pat : List Nat} {pos : Nat} (h2 : pat.length ≤ BUFFERSIZE)
    (hne : (file.drop (seekBack file pat pos)).take BUFFERSIZE ≠ []) :
    pos < seekBack file pat pos + ((file.drop (seekBack file pat pos)).take BUFFERSIZE).length := by
  have hlt := seekBack_lt_len hne
  rw [buf_length_eq]
  by_cases hc : ((pat.length : Int) - 1 ≤ (pos : Int) ∧ pos < file.length)
  · simp only [seekBack, if_pos hc] at hlt ⊢
    unfold BUFFERSIZE at *
    omega
  · simp only [seekBack, if_neg hc] at hlt ⊢
    rw [not_and_or] at hc
    unfold BUFFERSIZE at *
    omega

theorem newpos_le_len {file pat : List Nat} (pos : Nat) :
    seekBack file pat pos + ((file.drop (seekBack file pat pos)).take BUFFERSIZE).length ≤
      max pos file.length := by
  rw [buf_length_eq]
  have := seekBack_le_pos file pat pos
  unfold seekBack at *
  split <;> omega

theorem bfaLoop_acc_sub {file pat : List Nat} :
    ∀ {fuel pos acc l}, bfaLoop file pat fuel pos acc = some l → ∀ a ∈ acc, a ∈ l := by
  intro fuel
  induction fuel with
  | zero => intro pos acc l h; simp [bfaLoop] at h
  | succ fuel ih =>
    intro pos acc l h
    rw [bfaLoop_succ] at h
    split at h
    · injection h with h
      exact fun a ha => h ▸ ha
    · intro a ha
      exact ih h a (List.mem_append.mpr (Or.inl ha))

theorem bfaLoop_long_pat {file pat : List Nat} (hp : BUFFERSIZE < pat.length) :
    ∀ {fuel pos acc l}, bfaLoop file pat fuel pos acc = some l → l = acc := by
  intro fuel
  induction fuel with
  | zero => intro pos acc l h; simp [bfaLoop] at h
  | succ fuel ih =>
    intro pos acc l h
    rw [bfaLoop_succ] at h
    split at h
    · exact (Option.some.inj h).symm
    · have hfi : findIter pat ((file.drop (seekBack file pat pos)).take BUFFERSIZE) = [] := by
        apply findIter_eq_nil
        rw [buf_length_eq]
        omega
      rw [hfi] at h
      simp only [List.map_nil, List.append_nil] at h
      exact ih h

theorem bfaLoop_isSome {file pat : List Nat}
    (h2 : pat.length ≤ BUFFERSIZE) :
    ∀ {fuel pos} (acc : List Nat), pos ≤ file.length → file.length + 2 ≤ fuel + pos →
      (bfaLoop file pat fuel pos acc).isSome := by
  intro fuel
  induction fuel with
  | zero => intro pos acc hpos hfuel; omega
  | succ fuel ih =>
    intro pos acc hpos hfuel
    rw [bfaLoop_succ]
    split
    · simp
    · rename_i hne
      have hlt := lt_newpos h2 hne
      have hle := @newpos_le_len file pat pos
      exact ih _ (by omega) (by omega)

theorem bfaLoop_pairwise {file pat : List Nat} (h2 : pat.length ≤ BUFFERSIZE) :
    ∀ {fuel pos acc l}, List.Pairwise (· < ·) acc →
      (∀ a ∈ acc, a + pat.length ≤ pos) →
      bfaLoop file pat fuel pos acc = some l → List.Pairwise (· < ·) l := by
  intro fuel
  induction fuel with
  | zero => intro pos acc l _ _ h; simp [bfaLoop] at h
  | succ fuel ih =>
    intro pos acc l hacc hbound h
    rw [bfaLoop_succ] at h
    split at h
    · injection h with h
      exact h ▸ hacc
    · rename_i hne
      refine ih ?_ ?_ h
      · rw [List.pairwise_append]
        refine ⟨hacc, ?_, ?_⟩
        · rw [List.pairwise_map]
          exact findIter_pairwise.imp (fun hlt => by omega)
        · intro a ha b hb
          obtain ⟨r, _, rfl⟩ := List.mem_map.mp hb
          have := lt_seekBack_of_done hne (hbound a ha)
          omega
      · intro a ha
        rcases List.mem_append.mp ha with ha | ha
        · have h3 := hbound a ha
          have h4 := lt_newpos h2 hne
          omega
        · obtain ⟨r, hr, rfl⟩ := List.mem_map.mp ha
          have h5 := (findIter_sound hr).1
          omega

theorem bfaLoop_sound {file pat : List Nat} :
    ∀ {fuel pos acc l}, (∀ a ∈ acc, matchB pat file a = true) →
      bfaLoop file pat fuel pos acc = some l →
      ∀ a ∈ l, matchB pat file a = true := by
  intro fuel
  induction fuel with
  | zero => intro pos acc l _ h; simp [bfaLoop] at h
  | succ fuel ih =>
    intro pos acc l hacc h
    rw [bfaLoop_succ] at h
    split at h
    · injection h with h
      exact fun a ha => hacc a (h ▸ ha)
    · refine ih ?_ h
      intro a ha
      rcases List.mem_append.mp ha with ha | ha
      · exact hacc a ha
      · obtain ⟨r, hr, rfl⟩ := List.mem_map.mp ha
        obtain ⟨hlen, hm⟩ := findIter_sound hr
        rw [matchB_window hlen] at hm
        exact hm

theorem bfaLoop_complete {file pat : List Nat} (hbf : borderFree pat)
    (h1 : 1 ≤ pat.length) (h2 : pat.length ≤ BUFFERSIZE) :
    ∀ {fuel pos acc l},
      pos ≤ file.length →
      (pos = 0 ∨ pat.length - 1 ≤ pos ∨ pos = file.length) →
      (∀ q, matchB pat file q = true → q + pat.length ≤ pos → q ∈ acc) →
      bfaLoop file pat fuel pos acc = some l →
      ∀ q, matchB pat file q = true → q ∈ l := by
  intro fuel
  induction fuel with
  | zero => intro pos acc l _ _ _ h; simp [bfaLoop] at h
  | succ fuel ih =>
    intro pos acc l hpos hdisj hcomp h
    rw [bfaLoop_succ] at h
    split at h
    · rename_i hnil
      -- the read was empty: the cursor is at end of file and every
      -- occurrence has already been collected
      injection h with h
      subst h
      have hposn : pos = file.length := by
        by_cases hc : ((pat.length : Int) - 1 ≤ (pos : Int) ∧ pos < file.length)
        · exfalso
          have : file.length ≤ seekBack file pat pos := by
            by_contra hcon
            rw [not_le] at hcon
            have hd : file.drop (seekBack file pat pos) ≠ [] := by
              intro heq
              rw [List.drop_eq_nil_iff] at heq
              omega
            rcases List.take_eq_nil_iff.mp hnil with hB | hB
            · exact absurd hB (by unfold BUFFERSIZE; omega)
            · exact hd hB
          simp only [seekBack, if_pos hc] at this
          omega
        · have hv : seekBack file pat pos = pos := by
            rw [seekBack, if_neg hc]
          rw [hv] at hnil
          rcases List.take_eq_nil_iff.mp hnil with hB | hB
          · exact absurd hB (by unfold BUFFERSIZE; omega)
          · rw [List.drop_eq_nil_iff] at hB
            omega
      intro q hq
      exact hcomp q hq (by have := matchB_len h1 hq; omega)
    · rename_i hne
      refine ih ?_ ?_ ?_ h
      · have := @newpos_le_len file pat pos
        omega
      · -- the new cursor is 0, at least pat.length - 1, or at end of file
        by_cases hc : ((pat.length : Int) - 1 ≤ (pos : Int) ∧ pos < file.length)
        · right
          have hv : (seekBack file pat pos : Int) = (pos : Int) - ((pat.length : Int) - 1) := by
            simp only [seekBack, if_pos hc]
            omega
          have hlb : pat.length ≤ ((file.drop (seekBack file pat pos)).take BUFFERSIZE).length := by
            rw [buf_length_eq]
            have := seekBack_lt_len hne
            unfold BUFFERSIZE at *
            omega
          omega
        · have hlt := seekBack_lt_len hne
          have hv : seekBack file pat pos = pos := by rw [seekBack, if_neg hc]
          rw [hv] at hlt
          rw [not_and_or] at hc
          have hc2 : pos < pat.length - 1 := by
            rcases hc with hc | hc
            · omega
            · omega
          rcases hdisj with h0 | hL | hn
          · subst h0
            rw [buf_length_eq]
            have hbig : BUFFERSIZE ≤ file.length ∨ file.length < BUFFERSIZE := by omega
            rcases hbig with hbig | hbig
            · right; left
              rw [hv]
              unfold BUFFERSIZE at *
              omega
            · right; right
              rw [hv]
              omega
          · omega
          · omega
      · -- completeness is preserved across the window
        intro q hq hqend
        by_cases hqold : q + pat.length ≤ pos
        · exact List.mem_append.mpr (Or.inl (hcomp q hq hqold))
        · refine List.mem_append.mpr (Or.inr ?_)
          have hpq : seekBack file pat pos ≤ q := by
            by_cases hc : ((pat.length : Int) - 1 ≤ (pos : Int) ∧ pos < file.length)
            · simp only [seekBack, if_pos hc]
              omega
            · have hv : seekBack file pat pos = pos := by rw [seekBack, if_neg hc]
              rw [hv]
              rw [not_and_or] at hc
              rcases hdisj with h0 | hL | hn
              · omega
              · exfalso
                rcases hc with hc | hc
                · omega
                · -- pos is not before end of file, so pos = file.length and
                  -- the window would have been empty
                  have : pos = file.length := by omega
                  subst this
                  apply hne
                  rw [hv, List.drop_eq_nil_iff.mpr (Nat.le_refl _), List.take_nil]
              · exfalso
                subst hn
                apply hne
                rw [hv, List.drop_eq_nil_iff.mpr (Nat.le_refl _), List.take_nil]
          -- q lies inside the current window
          have hm : matchB pat ((file.drop (seekBack file pat pos)).take BUFFERSIZE)
              (q - seekBack file pat pos) = true := by
            have hwin : (q - seekBack file pat pos) + pat.length ≤
                ((file.drop (seekBack file pat pos)).take BUFFERSIZE).length := by
              omega
            rw [matchB_window hwin]
            have : seekBack file pat pos + (q - seekBack file pat pos) = q := by omega
            rw [this]
            exact hq
          refine List.mem_map.mpr ⟨q - seekBack file pat pos, findIter_complete hbf h1 hm, ?_⟩
          omega

/-! ### The locator computes exactly the occurrence list -/

theorem sorted_eq_of_mem {l₁ l₂ : List Nat} (h₁ : List.Pairwise (· < ·) l₁)
    (h₂ : List.Pairwise (· < ·) l₂) (h : ∀ a, a ∈ l₁ ↔ a ∈ l₂) : l₁ = l₂ := by
  haveI : IsAntisymm Nat (· < ·) := ⟨fun a b hab hba => absurd hba (lt_asymm hab)⟩
  refine List.eq_of_perm_of_sorted ?_ h₁ h₂
  have n₁ : l₁.Nodup := h₁.imp Nat.ne_of_lt
  have n₂ : l₂.Nodup := h₂.imp Nat.ne_of_lt
  exact (List.perm_ext_iff_of_nodup n₁ n₂).mpr h

theorem mem_occList {pat file : List Nat} {q : Nat} :
    q ∈ occList pat file ↔ matchB pat file q = true ∧ q ≤ file.length := by
  unfold occList
  rw [List.mem_filter, List.mem_range]
  constructor
  · rintro ⟨hr, hm⟩
    exact ⟨hm, by omega⟩
  · rintro ⟨hm, hb⟩
    exact ⟨by omega, hm⟩

theorem occList_pairwise (pat file : List Nat) :
    List.Pairwise (· < ·) (occList pat file) :=
  List.Pairwise.sublist (List.filter_sublist _) (List.pairwise_lt_range _)

/-- For a border-free pattern no longer than the window, the chunked
scan starting at offset 0 returns exactly the occurrence list. -/
theorem bfa_eq_occList {file pat : List Nat} (hbf : borderFree pat)
    (h1 : 1 ≤ pat.length) (h2 : pat.length ≤ BUFFERSIZE) :
    buffered_findall file pat 0 (file.length + 2) = some (occList pat file) := by
  have hs := @bfaLoop_isSome file pat h2 (file.length + 2) 0 [] (Nat.zero_le _) (by omega)
  obtain ⟨l, hl⟩ := Option.isSome_iff_exists.mp hs
  rw [buffered_findall, hl]
  congr 1
  apply sorted_eq_of_mem
  · exact bfaLoop_pairwise h2 List.Pairwise.nil (by simp) hl
  · exact occList_pairwise pat file
  · intro a
    constructor
    · intro ha
      have hm := bfaLoop_sound (by simp) hl a ha
      exact mem_occList.mpr ⟨hm, by have := matchB_len h1 hm; omega⟩
    · intro ha
      obtain ⟨hm, _⟩ := mem_occList.mp ha
      refine bfaLoop_complete hbf h1 h2 (Nat.zero_le _) (Or.inl rfl) ?_ hl a hm
      intro q _ hq0
      exact absurd hq0 (by omega)

theorem marker15_borderFree : borderFree marker15 := by decide

theorem marker15_len : marker15.length = 15 := by decide

theorem matchB_self (pat : List Nat) : matchB pat pat 0 = true := by
  simp [matchB]

/-! ### Concrete files used as counterexamples and witnesses -/

/-- A 15-byte file that is exactly one marker occurrence. -/
def fileOneMarker : List Nat := marker15

/-- A 31-byte file containing the marker at offsets 0 and 16. -/
def fileTwoMarkers : List Nat := marker15 ++ [65] ++ marker15

/-- A pattern two bytes longer than the window. -/
def pat4098 : List Nat := List.replicate 4098 97

/-- A pattern one byte longer than the window. -/
def pat4097 : List Nat := List.replicate 4097 97

/-! ### Claim C1 -/

/-- C1 counterexample: `len(Collision)` is `len(_ion_index) - 1`, not the
number of marker occurrences.  On a zero-byte file the dunder returns `-1`
(so the built-in `len()` raises `ValueError`), not `0`; and on a file in
which the marker occurs exactly once the store reports `0`, not `1`. -/
theorem c1_count_counterexample :
    collisionLen [] = -1 ∧
      (occList marker15 fileOneMarker).length = 1 ∧
      collisionLen fileOneMarker = 0 := by decide

/-- C1 (amended): for every input file, `len(Collision)` equals the number
of occurrences of the marker literal `"  Ion    Energy"` in the raw file
(computed by the independent whole-file scan `occList`) minus one; in
particular a zero-byte or header-only file, where the marker occurs zero
times, yields `-1`, on which Python's `len()` raises `ValueError`. -/
theorem c1_count_is_occurrences_minus_one (file : List Nat) :
    collisionLen file = ((occList marker15 file).length : Int) - 1 := by
  unfold collisionLen collisionIndex
  rw [bfa_eq_occList marker15_borderFree (by decide) (by decide)]
  rfl

/-! ### Claim C3 -/

/-- C3: for every file, marker pattern, start offset and fuel, whenever the
chunked locator loop finishes, the returned offset sequence is strictly
increasing (pairwise `<`), so in particular no match offset appears twice —
the overlap of `len(pattern) - 1` bytes re-scans only a region too short to
contain a whole match, so a match is never reported from two windows. -/
theorem c3_offsets_strictly_increasing (file pat : List Nat) (start fuel : Nat)
    (l : List Nat) (h : buffered_findall file pat start fuel = some l) :
    List.Pairwise (· < ·) l := by
  rw [buffered_findall] at h
  by_cases hL : pat.length ≤ BUFFERSIZE
  · exact bfaLoop_pairwise hL List.Pairwise.nil (by simp) h
  · rw [bfaLoop_long_pat (by omega) h]
    exact List.Pairwise.nil

/-- C3 witness: on the concrete two-marker file the locator returns
`[0, 16]`, which the theorem shows to be strictly increasing. -/
theorem c3_witness : List.Pairwise (· < ·) [0, 16] :=
  c3_offsets_strictly_increasing fileTwoMarkers marker15 0 33 [0, 16] (by decide)

/-! ### Claim C4 -/

theorem pat4098_len : pat4098.length = 4098 := by
  rw [pat4098, List.length_replicate]

/-- C4 counterexample: with a 4098-byte pattern (longer than the 4096-byte
window) and the file equal to the pattern itself, the marker occurs at
offset 0, yet the locator terminates and returns the empty list: no window
is ever long enough to contain a match. -/
theorem c4_long_pattern_counterexample :
    BUFFERSIZE < pat4098.length ∧ matchB pat4098 pat4098 0 = true ∧
      buffered_findall pat4098 pat4098 0 10 = some [] := by
  refine ⟨by rw [pat4098_len]; decide, matchB_self pat4098, ?_⟩
  have hs0 : seekBack pat4098 pat4098 0 = 0 := by
    rw [seekBack, if_neg]
    rintro ⟨h1, -⟩
    rw [pat4098_len] at h1
    omega
  have hs1 : seekBack pat4098 pat4098 4096 = 4096 := by
    rw [seekBack, if_neg]
    rintro ⟨h1, -⟩
    rw [pat4098_len] at h1
    omega
  have hs2 : seekBack pat4098 pat4098 4098 = 4098 := by
    rw [seekBack, if_neg]
    rintro ⟨-, h2⟩
    rw [pat4098_len] at h2
    omega
  have hbuf0 : ((pat4098.drop 0).take BUFFERSIZE) = List.replicate 4096 97 := by
    rw [pat4098, List.drop_zero, List.take_replicate]
    congr 1
  have hbuf1 : ((pat4098.drop 4096).take BUFFERSIZE) = List.replicate 2 97 := by
    rw [pat4098, List.drop_replicate, List.take_replicate]
    congr 1
  have hbuf2 : ((pat4098.drop 4098).take BUFFERSIZE) = [] := by
    rw [pat4098, List.drop_replicate]
    norm_num
  have hrepne : ∀ k : Nat, 0 < k → List.replicate k 97 ≠ ([] : List Nat) := by
    intro k hk heq
    rw [List.replicate_eq_nil_iff] at heq
    omega
  have hreplt : ∀ k : Nat, k < 4098 → (List.replicate k (97 : Nat)).length < pat4098.length := by
    intro k hk
    rw [pat4098_len, List.length_replicate]
    omega
  rw [buffered_findall]
  rw [show (10 : Nat) = 9 + 1 from rfl, bfaLoop_succ, hs0, hbuf0]
  rw [if_neg (hrepne 4096 (by omega))]
  rw [findIter_eq_nil (hreplt 4096 (by omega))]
  simp only [List.map_nil, List.append_nil, List.length_replicate, Nat.zero_add]
  rw [show (9 : Nat) = 8 + 1 from rfl, bfaLoop_succ, hs1, hbuf1]
  rw [if_neg (hrepne 2 (by omega))]
  rw [findIter_eq_nil (hreplt 2 (by omega))]
  simp only [List.map_nil, List.append_nil, List.length_replicate]
  rw [show (8 : Nat) = 7 + 1 from rfl, show (4096 + 2 : Nat) = 4098 from rfl,
    bfaLoop_succ, hs2, hbuf2]
  rw [if_pos rfl]

/-- C4 (amended): for a pattern longer than the window size the locator
does not return the occurrences' offsets: whenever the loop terminates it
has reported nothing at all, because no match fits inside any window
(the overlap is indeed `len(pattern) - 1` independent of the window size,
but that makes consecutive windows move backwards, and for files of length
at least `len(pattern) + 4095` the loop does not terminate at all). -/
theorem c4_long_pattern_reports_nothing (file pat : List Nat) (start fuel : Nat)
    (l : List Nat) (hlen : BUFFERSIZE < pat.length)
    (h : buffered_findall file pat start fuel = some l) : l = [] := by
  rw [buffered_findall] at h
  exact bfaLoop_long_pat hlen h

theorem pat4097_len : pat4097.length = 4097 := by
  rw [pat4097, List.length_replicate]

theorem bfa_nil_pat4097 : buffered_findall [] pat4097 0 1 = some [] := by
  rw [buffered_findall, show (1 : Nat) = 0 + 1 from rfl, bfaLoop_succ]
  have hsk : seekBack [] pat4097 0 = 0 := by
    rw [seekBack, if_neg]
    rintro ⟨-, h2⟩
    simp at h2
  rw [hsk, List.drop_nil, List.take_nil, if_pos rfl]

/-- C4 witness: the amended theorem applied to the 4097-byte pattern on an
empty file, where the loop stops immediately with the empty result. -/
theorem c4_witness : BUFFERSIZE < pat4097.length ∧ ([] : List Nat) = [] :=
  ⟨by rw [pat4097_len]; decide,
   c4_long_pattern_reports_nothing [] pat4097 0 1 []
     (by rw [pat4097_len]; decide) bfa_nil_pat4097⟩

/-! ### Claim C5 -/

/-- C5: for every input file, the index-building scan performed at
`Collision` construction — `buffered_findall` with the fixed 15-byte
marker, starting at offset 0 — terminates within `file.length + 2` loop
iterations (fuel linear in the file size): the loop always reaches end of
file and returns. -/
theorem c5_scan_terminates (file : List Nat) :
    (buffered_findall file marker15 0 (file.length + 2)).isSome = true := by
  rw [buffered_findall]
  exact bfaLoop_isSome (by decide) [] (Nat.zero_le _) (by omega)

/-! ### Claim C10 -/

/-- C10: when `buffered_findall` is called with a start offset
`s ≥ len(marker) - 1 = 14` that lies inside the file, the cursor is moved
back by 14 bytes before the first window read, so a marker occurrence
beginning at `s - 14` — strictly before the start offset — is reported:
the start offset is not a lower bound on the returned offsets. -/
theorem c10_reports_before_start (file : List Nat) (s : Nat)
    (hs : 14 ≤ s) (hn : s < file.length)
    (hm : matchB marker15 file (s - 14) = true)
    (l : List Nat) (h : buffered_findall file marker15 s (file.length + 2) = some l) :
    (s - 14) ∈ l ∧ s - 14 < s := by
  refine ⟨?_, by omega⟩
  rw [buffered_findall] at h
  have h2 : bfaLoop file marker15 (file.length + 1 + 1) s [] = some l := h
  rw [bfaLoop_succ] at h2
  have hc : ((marker15.length : Int) - 1 ≤ (s : Int) ∧ s < file.length) := by
    rw [marker15_len]
    constructor
    · omega
    · exact hn
  have hp : seekBack file marker15 s = s - 14 := by
    rw [seekBack, if_pos hc, marker15_len]
    omega
  rw [hp] at h2
  have hblen : ((file.drop (s - 14)).take BUFFERSIZE).length =
      min BUFFERSIZE (file.length - (s - 14)) := buf_length_eq file (s - 14)
  have hbne : (file.drop (s - 14)).take BUFFERSIZE ≠ [] := by
    intro heq
    have := congrArg List.length heq
    rw [hblen] at this
    unfold BUFFERSIZE at this
    simp at this
    omega
  rw [if_neg hbne] at h2
  have hm0 : matchB marker15 ((file.drop (s - 14)).take BUFFERSIZE) 0 = true := by
    have hwin : 0 + marker15.length ≤ ((file.drop (s - 14)).take BUFFERSIZE).length := by
      rw [hblen, marker15_len]
      unfold BUFFERSIZE
      omega
    rw [matchB_window hwin]
    have : (s - 14) + 0 = s - 14 := by omega
    rw [this]
    exact hm
  have hmem : (s - 14) ∈ [] ++ (findIter marker15 ((file.drop (s - 14)).take BUFFERSIZE)).map
      (fun r => (s - 14) + r) := by
    refine List.mem_append.mpr (Or.inr ?_)
    exact List.mem_map.mpr ⟨0, findIter_complete marker15_borderFree (by decide) hm0, by omega⟩
  exact bfaLoop_acc_sub h2 _ hmem

/-- C10 witness: the file consisting of the marker alone, scanned with
start offset 14: the returned list is `[0]`, containing `0 = 14 - 14 < 14`. -/
theorem c10_witness : (14 - 14 : Nat) ∈ [0] ∧ (14 - 14 : Nat) < 14 :=
  c10_reports_before_start fileOneMarker 14 (by omega) (by decide) (by decide)
    [0] (by decide)

/-! ### The record parser

`Collision.__getitem__` decodes the record's byte span as latin-1 and
hands it to `_read_ion`, which walks the lines with a shared generator.
The embedding reifies the Python exceptions the parser can raise.
Numeric values are carried as `PyNum`: `intVal` for Python ints and
`floatLit` for the (stripped) literal accepted by `float(...)` — the
claims below only compare values flowing out of the same parse, for
which literal identity is the right notion.
-/

inductive PyErr where
  | indexError
  | valueError
  | attributeError
  | stopIteration
  | assertionError
  /-- Posited by the spec as the parser's failure kind; `output.py`
  defines no such class and no code path can raise it. -/
  | formatError
  deriving DecidableEq, Repr

inductive PyNum where
  | intVal (n : Int)
  | floatLit (lit : List Char)
  deriving DecidableEq, Repr

deriving instance DecidableEq for Except

/-- The effective position of index `i` in a list of length `n` under
Python semantics: negative indices count from the end. -/
def pyIdx (n : Nat) (i : Int) : Int :=
  if i < 0 then (n : Int) + i else i

/-- Model of Python list indexing `l[i]` with wrap-around for negative
indices and `IndexError` out of range. -/
def pyGet {α : Type} (l : List α) (i : Int) : Except PyErr α :=
  if 0 ≤ pyIdx l.length i ∧ pyIdx l.length i < (l.length : Int) then
    match l.get? (pyIdx l.length i).toNat with
    | some a => .ok a
    | none => .error .indexError
  else
    .error .indexError

/-- Whitespace for `str.split()`, the regex `\s` and numeric stripping,
restricted to the latin-1 range (tab through carriage return, the four
information separators, space, next-line U+0085 and no-break space
U+00A0). -/
def isWS (c : Char) : Bool :=
  [9, 10, 11, 12, 13, 28, 29, 30, 31, 32, 133, 160].contains c.toNat

def trimWS (cs : List Char) : List Char :=
  ((cs.dropWhile isWS).reverse.dropWhile isWS).reverse

def digitsVal (ds : List Char) : Nat :=
  ds.foldl (fun acc c => acc * 10 + (c.toNat - 48)) 0

/-- Model of `int(s)`: optional surrounding whitespace, optional sign,
one or more ASCII digits (underscored literals and non-ASCII digits are
not modelled; every input in this development is plain ASCII). -/
def intLitVal (cs : List Char) : Option Int :=
  match trimWS cs with
  | [] => none
  | c :: rest =>
    if c = '-' then
      if rest ≠ [] ∧ rest.all Char.isDigit then some (-(digitsVal rest : Int)) else none
    else if c = '+' then
      if rest ≠ [] ∧ rest.all Char.isDigit then some ((digitsVal rest : Int)) else none
    else
      if (c :: rest).all Char.isDigit then some ((digitsVal (c :: rest) : Int)) else none

def pyInt (cs : List Char) : Except PyErr Int :=
  match intLitVal cs with
  | some n => .ok n
  | none => .error .valueError

def expTailOk (cs : List Char) : Bool :=
  match cs with
  | [] => false
  | e :: rest =>
    (e = 'e' || e = 'E') &&
      (let rest2 := match rest with
        | s :: r2 => if s = '+' ∨ s = '-' then r2 else rest
        | [] => rest
       rest2 ≠ [] && rest2.all Char.isDigit)

def floatTailOk (cs : List Char) : Bool :=
  cs = [] || expTailOk cs

def mantissaOk (cs : List Char) : Bool :=
  let d1 := cs.takeWhile Char.isDigit
  if d1 ≠ [] then
    match cs.drop d1.length with
    | '.' :: r2 =>
      let d2 := r2.takeWhile Char.isDigit
      floatTailOk (r2.drop d2.length)
    | r1 => floatTailOk r1
  else
    match cs with
    | '.' :: r2 =>
      let d2 := r2.takeWhile Char.isDigit
      d2 ≠ [] && floatTailOk (r2.drop d2.length)
    | _ => false

/-- Model of the literals accepted by `float(s)`: optional surrounding
whitespace, optional sign, then `digits [. digits]`, `digits .`,
`. digits`, or plain `digits`, with an optional exponent (`inf`, `nan`
and underscored literals are not modelled; no input here uses them). -/
def floatLitOk (cs : List Char) : Bool :=
  match trimWS cs with
  | [] => false
  | c :: rest =>
    if c = '+' ∨ c = '-' then mantissaOk rest else mantissaOk (c :: rest)

def pyFloat (cs : List Char) : Except PyErr PyNum :=
  if floatLitOk cs then .ok (.floatLit (trimWS cs)) else .error .valueError

/-- Model of `str.split(sep)` for a one-character separator: splits at
every occurrence, keeping empty pieces (so `"".split(sep) == [""]`). -/
def splitOnChar (d : Char) : List Char → List (List Char)
  | [] => [[]]
  | c :: rest =>
    if c = d then
      [] :: splitOnChar d rest
    else
      match splitOnChar d rest with
      | [] => [[c]]
      | p :: ps => (c :: p) :: ps

/-- `line.split(d)[1:-1]`: drop the first and last piece of the split. -/
def splitDropEnds (d : Char) (cs : List Char) : List (List Char) :=
  ((splitOnChar d cs).drop 1).dropLast

/-- Model of `str.split()` with no argument: whitespace-run separated
tokens, no empty tokens. -/
def pySplitWsAux : List Char → List Char → List (List Char)
  | [], acc => if acc = [] then [] else [acc.reverse]
  | c :: rest, acc =>
    if isWS c then
      if acc = [] then pySplitWsAux rest []
      else acc.reverse :: pySplitWsAux rest []
    else
      pySplitWsAux rest (c :: acc)

def pySplitWs (cs : List Char) : List (List Char) :=
  pySplitWsAux cs []

/-- The field delimiter `chr(179)` (the byte 0xB3, decoded by latin-1 to
the superscript-three code point). -/
def d179 : Char := Char.ofNat 179

/-- Model of `re.match("^X+\r$", line)` for a separator character `X`:
one or more `X` followed by a single carriage return ends the line
(lines produced by `split('\n')` contain no newline). -/
def isSepOf (d : Char) (l : List Char) : Bool :=
  match l.reverse with
  | c :: rest => c = '\r' && rest ≠ [] && rest.all (fun x => x = d)
  | [] => false

def isDashSep (l : List Char) : Bool := isSepOf '-' l

def isEqSep (l : List Char) : Bool := isSepOf '=' l

def cascadeLit : List Char := chars "<== Start of New Cascade"

/-- Model of `re.match(r"\s+<== Start of New Cascade\s+", t)`: at least
one whitespace character, the literal phrase, then at least one more
whitespace character (the rest of the token is unconstrained). -/
def isCascadeStart (t : List Char) : Bool :=
  let w := t.takeWhile isWS
  let r := t.drop w.length
  w ≠ [] && cascadeLit.isPrefixOf r &&
    (match r.drop cascadeLit.length with
     | c :: _ => isWS c
     | [] => false)

def cascadeHeaderLit : List Char :=
  chars "  Recoil Atom Energy(eV)   X (A)      Y (A)      Z (A)   Vac Repl Ion Numb "

/-- Model of the `_read_cascade` header assertion regex: the fixed
column-header text, then one or more digits, then `=`. -/
def isCascadeHeader (l : List Char) : Bool :=
  cascadeHeaderLit.isPrefixOf l &&
    (let r := l.drop cascadeHeaderLit.length
     let ds := r.takeWhile Char.isDigit
     ds ≠ [] &&
       (match r.drop ds.length with
        | c :: _ => c = '='
        | [] => false))

def isUpperAZ (c : Char) : Bool := 65 ≤ c.toNat && c.toNat ≤ 90

def isLowerAZ (c : Char) : Bool := 97 ≤ c.toNat && c.toNat ≤ 122

/-- Model of `re.search("([A-Z][a-z])", s)`: the first occurrence of an
ASCII uppercase letter immediately followed by an ASCII lowercase
letter, as a two-character string; `none` when there is no such pair
(in which case the code's `.group(1)` on `None` raises
`AttributeError`). -/
def searchAZaz : List Char → Option (List Char)
  | [] => none
  | [_] => none
  | c :: d :: rest =>
    if isUpperAZ c && isLowerAZ d then some [c, d] else searchAZaz (d :: rest)

/-- Model of `re.search("[+-]?\d+", s)`: the leftmost maximal run of
digits, with a sign included when it immediately precedes the run. -/
def searchInt : List Char → Option (List Char)
  | [] => none
  | c :: rest =>
    if c.isDigit then some (c :: rest.takeWhile Char.isDigit)
    else if (c = '+' || c = '-') &&
        (match rest with | d :: _ => d.isDigit | [] => false) then
      some (c :: rest.takeWhile Char.isDigit)
    else searchInt rest

/-- Length of a match of `[-+]?\d+\.\d+(?:[eE][-+]?\d+)?` anchored at the
head of `cs`, with the regex's greedy/backtracking behaviour. -/
def matchDoubleLen (cs : List Char) : Option Nat :=
  let sgn : Nat := match cs with
    | c :: _ => if c = '+' ∨ c = '-' then 1 else 0
    | [] => 0
  let r0 := cs.drop sgn
  let d1 := r0.takeWhile Char.isDigit
  if d1 = [] then none
  else
    match r0.drop d1.length with
    | '.' :: r2 =>
      let d2 := r2.takeWhile Char.isDigit
      if d2 = [] then none
      else
        let base := sgn + d1.length + 1 + d2.length
        match r2.drop d2.length with
        | e :: r4 =>
          if e = 'e' ∨ e = 'E' then
            let s2 : Nat := match r4 with
              | c2 :: _ => if c2 = '+' ∨ c2 = '-' then 1 else 0
              | [] => 0
            let d3 := (r4.drop s2).takeWhile Char.isDigit
            if d3 = [] then some base else some (base + 1 + s2 + d3.length)
          else some base
        | [] => some base
    | _ => none

def findAllDoubleAux : Nat → List Char → List (List Char)
  | 0, _ => []
  | _ + 1, [] => []
  | fuel + 1, c :: rest =>
    match matchDoubleLen (c :: rest) with
    | some k => (c :: rest).take k :: findAllDoubleAux fuel ((c :: rest).drop k)
    | none => findAllDoubleAux fuel rest

/-- Model of `re.findall(double_regex, footer)`: the non-overlapping
leftmost matches, in order. -/
def findAllDouble (cs : List Char) : List (List Char) :=
  findAllDoubleAux cs.length cs

def latin1Decode (b : List Nat) : List Char :=
  b.map Char.ofNat

/-- Universal-newline line splitting, as text-mode `open(..., "r")`
iterates a file: lines end at `\n`, `\r\n` or `\r`, each reported with a
single `\n` terminator; a final unterminated chunk is reported as is. -/
def uLines : List Char → List (List Char)
  | [] => []
  | '\r' :: '\n' :: rest => ['\n'] :: uLines rest
  | '\r' :: rest => ['\n'] :: uLines rest
  | '\n' :: rest => ['\n'] :: uLines rest
  | c :: rest =>
    match uLines rest with
    | [] => [[c]]
    | l :: ls => (c :: l) :: ls

/-- The header terminator `" \n"` that `_read_header` compares each
line against. -/
def headerStop : List Char := chars " \n"

/-- Model of `Collision._read_header` (output.py 198-212): collect lines
until one equals `" \n"`; if no line does, the loop simply ends at end
of file and returns everything collected — there is no failure path. -/
def readHeader : List (List Char) → List (List Char)
  | [] => []
  | l :: ls => if l = headerStop then [] else l :: readHeader ls

/-! ### Record structures and the per-record parser -/

structure RecoilEntry where
  recoil : Int
  atom : Int
  recoil_energy : PyNum
  position : PyNum × PyNum × PyNum
  vac : Int
  repl : Int
  deriving DecidableEq, Repr

structure CollisionEvent where
  ion_number : Int
  kinetic_energy : PyNum
  depth : PyNum
  lat_y_dist : PyNum
  lat_z_dist : PyNum
  stopping_energy : PyNum
  atom : List Char
  recoil_energy : PyNum
  target_disp : PyNum
  target_vac : PyNum
  target_replac : PyNum
  target_inter : PyNum
  cascade : Option (List RecoilEntry)
  deriving DecidableEq, Repr

structure IonRecord where
  ion_number : Int
  displacements : PyNum
  avg_displacements : PyNum
  replacements : PyNum
  avg_replacements : PyNum
  vacancies : PyNum
  avg_vacancies : PyNum
  interstitials : PyNum
  avg_interstitials : PyNum
  sputtered_atoms : PyNum
  avg_sputtered_atoms : PyNum
  transmitted_atoms : PyNum
  avg_transmitted_atoms : PyNum
  collisions : List CollisionEvent
  deriving DecidableEq, Repr

/-- Building one collision-event dictionary (output.py 255-269), with the
fields evaluated in Python's order: `int(tokens[0])`, `float(tokens[1])`
… `float(tokens[5])`, the `re.search` on `tokens[6]` (whose `.group(1)`
on a failed search raises `AttributeError`), then `float(tokens[7])`;
the four target counts and the cascade were computed by the caller. -/
def mkEvent (tokens : List (List Char)) (td tv tr ti : PyNum)
    (cas : Option (List RecoilEntry)) : Except PyErr CollisionEvent :=
  match pyGet tokens 0 with
  | .error e => .error e
  | .ok t0 =>
    match pyInt t0 with
    | .error e => .error e
    | .ok ionN =>
      match pyGet tokens 1 with
      | .error e => .error e
      | .ok t1 =>
        match pyFloat t1 with
        | .error e => .error e
        | .ok ke =>
          match pyGet tokens 2 with
          | .error e => .error e
          | .ok t2 =>
            match pyFloat t2 with
            | .error e => .error e
            | .ok dep =>
              match pyGet tokens 3 with
              | .error e => .error e
              | .ok t3 =>
                match pyFloat t3 with
                | .error e => .error e
                | .ok ly =>
                  match pyGet tokens 4 with
                  | .error e => .error e
                  | .ok t4 =>
                    match pyFloat t4 with
                    | .error e => .error e
                    | .ok lz =>
                      match pyGet tokens 5 with
                      | .error e => .error e
                      | .ok t5 =>
                        match pyFloat t5 with
                        | .error e => .error e
                        | .ok se =>
                          match pyGet tokens 6 with
                          | .error e => .error e
                          | .ok t6 =>
                            match searchAZaz t6 with
                            | none => .error .attributeError
                            | some atomSym =>
                              match pyGet tokens 7 with
                              | .error e => .error e
                              | .ok t7 =>
                                match pyFloat t7 with
                                | .error e => .error e
                                | .ok ren =>
                                  .ok { ion_number := ionN, kinetic_energy := ke,
                                        depth := dep, lat_y_dist := ly,
                                        lat_z_dist := lz, stopping_energy := se,
                                        atom := atomSym, recoil_energy := ren,
                                        target_disp := td, target_vac := tv,
                                        target_replac := tr, target_inter := ti,
                                        cascade := cas }

/-- One recoil line of a cascade (output.py 316-327): whitespace-split,
first and last token dropped, then ints/floats in the dictionary's
evaluation order. -/
def recoilEntryOf (tokens : List (List Char)) : Except PyErr RecoilEntry :=
  match pyGet tokens 0 with
  | .error e => .error e
  | .ok t0 =>
    match pyInt t0 with
    | .error e => .error e
    | .ok rec0 =>
      match pyGet tokens 1 with
      | .error e => .error e
      | .ok t1 =>
        match pyInt t1 with
        | .error e => .error e
        | .ok atom1 =>
          match pyGet tokens 2 with
          | .error e => .error e
          | .ok t2 =>
            match pyFloat t2 with
            | .error e => .error e
            | .ok ren =>
              match pyGet tokens 3 with
              | .error e => .error e
              | .ok t3 =>
                match pyFloat t3 with
                | .error e => .error e
                | .ok px =>
                  match pyGet tokens 4 with
                  | .error e => .error e
                  | .ok t4 =>
                    match pyFloat t4 with
                    | .error e => .error e
                    | .ok py =>
                      match pyGet tokens 5 with
                      | .error e => .error e
                      | .ok t5 =>
                        match pyFloat t5 with
                        | .error e => .error e
                        | .ok pz =>
                          match pyGet tokens 6 with
                          | .error e => .error e
                          | .ok t6 =>
                            match pyInt t6 with
                            | .error e => .error e
                            | .ok vac6 =>
                              match pyGet tokens 7 with
                              | .error e => .error e
                              | .ok t7 =>
                                match pyInt t7 with
                                | .error e => .error e
                                | .ok repl7 =>
                                  .ok { recoil := rec0, atom := atom1,
                                        recoil_energy := ren,
                                        position := (px, py, pz),
                                        vac := vac6, repl := repl7 }

/-- The recoil-collecting loop of `_read_cascade` (output.py 313-327):
stops after consuming an all-equals separator line; if the stream is
exhausted first, the loop just ends (and the caller's `next` fails). -/
def readRecoils : List (List Char) → List RecoilEntry →
    Except PyErr (List RecoilEntry × List (List Char))
  | [], acc => .ok (acc, [])
  | line :: rest, acc =>
    if isEqSep line then .ok (acc, rest)
    else
      match recoilEntryOf (((pySplitWs line).drop 1).dropLast) with
      | .error e => .error e
      | .ok entry => readRecoils rest (acc ++ [entry])

/-- The cascade summary line (output.py 330-335): delimiter-split with
the outer pieces dropped, fields 2-5 parsed as floats, in order. -/
def parseCascadeSummary (sline : List Char) :
    Except PyErr (PyNum × PyNum × PyNum × PyNum) :=
  match pyGet (splitDropEnds d179 sline) 2 with
  | .error e => .error e
  | .ok t2 =>
    match pyFloat t2 with
    | .error e => .error e
    | .ok td =>
      match pyGet (splitDropEnds d179 sline) 3 with
      | .error e => .error e
      | .ok t3 =>
        match pyFloat t3 with
        | .error e => .error e
        | .ok tv =>
          match pyGet (splitDropEnds d179 sline) 4 with
          | .error e => .error e
          | .ok t4 =>
            match pyFloat t4 with
            | .error e => .error e
            | .ok tr =>
              match pyGet (splitDropEnds d179 sline) 5 with
              | .error e => .error e
              | .ok t5 =>
                match pyFloat t5 with
                | .error e => .error e
                | .ok ti => .ok (td, tv, tr, ti)

/-- Model of `Collision._read_cascade` (output.py 301-337): an equals
separator (asserted), the fixed column-header line (asserted), the
recoil lines up to the next equals separator, then the summary line;
returns the four aggregate counts, the recoil list, and the stream
position after the summary line.  `next` on an exhausted stream raises
`StopIteration`; a failed `assert` raises `AssertionError`. -/
def readCascade (ls : List (List Char)) :
    Except PyErr ((PyNum × PyNum × PyNum × PyNum) × List RecoilEntry × List (List Char)) :=
  match ls with
  | [] => .error .stopIteration
  | line :: rest =>
    if isEqSep line then
      match rest with
      | [] => .error .stopIteration
      | hline :: rest2 =>
        if isCascadeHeader hline then
          match readRecoils rest2 [] with
          | .error e => .error e
          | .ok p =>
            match p.2 with
            | [] => .error .stopIteration
            | sline :: rest4 =>
              match parseCascadeSummary sline with
              | .error e => .error e
              | .ok sums => .ok (sums, p.1, rest4)
        else .error .assertionError
    else .error .assertionError

/-- The no-cascade displacement count: `float(tokens[8])` with
`tokens = line.split(chr(179))[1:-1]` (output.py 249). -/
def ninthFloat (line : List Char) : Except PyErr PyNum :=
  match pyGet (splitDropEnds d179 line) 8 with
  | .error e => .error e
  | .ok t8 => pyFloat t8

/-- The collision-reading loop of `_read_ion` (output.py 234-269): each
line up to an all-equals separator is delimiter-split with the outer
pieces dropped; `tokens[-1]` is tested against the cascade-start marker;
with a cascade the four target counts come from `_read_cascade`,
without one `target_disp` is the ninth token and the other three counts
are the int 0.  `fuel` bounds the loop (one unit per event; the callers
pass more than the number of lines, which always suffices because each
event consumes at least one line). -/
def readCollisions : Nat → List (List Char) → List CollisionEvent →
    Except PyErr (List CollisionEvent × List (List Char))
  | 0, _, _ => .error .stopIteration
  | fuel + 1, ls, acc =>
    match ls with
    | [] => .ok (acc, [])
    | line :: rest =>
      if isEqSep line then .ok (acc, rest)
      else
        match pyGet (splitDropEnds d179 line) (-1) with
        | .error e => .error e
        | .ok lastTok =>
          if isCascadeStart lastTok then
            match readCascade rest with
            | .error e => .error e
            | .ok out =>
              match mkEvent (splitDropEnds d179 line)
                  out.1.1 out.1.2.1 out.1.2.2.1 out.1.2.2.2 (some out.2.1) with
              | .error e => .error e
              | .ok ev => readCollisions fuel out.2.2 (acc ++ [ev])
          else
            match ninthFloat line with
            | .error e => .error e
            | .ok td =>
              match mkEvent (splitDropEnds d179 line)
                  td (.intVal 0) (.intVal 0) (.intVal 0) none with
              | .error e => .error e
              | .ok ev => readCollisions fuel rest (acc ++ [ev])

/-- The skip-header loop of `_read_ion` (output.py 227-229): consume
lines up to and including the first all-dashes separator; if none is
found the whole stream is consumed. -/
def skipDashHeader : List (List Char) → List (List Char)
  | [] => []
  | l :: ls => if isDashSep l then ls else skipDashHeader ls

/-- The footer loop of `_read_ion` (output.py 274-278): concatenate
lines (no separator) up to an all-equals separator line, returning the
concatenation and the remaining stream. -/
def takeFooter : List (List Char) → (List Char × List (List Char))
  | [] => ([], [])
  | l :: ls =>
    if isEqSep l then ([], ls)
    else
      let fr := takeFooter ls
      (l ++ fr.1, fr.2)

/-- Model of `Collision._read_ion` (output.py 214-299): split the span
on newlines, skip the per-block header, read the collision events, read
the ion number (first integer of the next line; a failed search raises
`AttributeError` via `.group(0)`), collect the footer text, extract the
float-looking tokens, consume one more line, and build the record with
`int(...)` first and the twelve footer floats in order (a missing
`matches[k]` raises `IndexError`). -/
def readIon (ion_str : List Char) : Except PyErr IonRecord :=
  let ls1 := skipDashHeader (splitOnChar '\n' ion_str)
  match readCollisions (ls1.length + 1) ls1 [] with
  | .error e => .error e
  | .ok (collisions, ls2) =>
    match ls2 with
    | [] => .error .stopIteration
    | l :: ls3 =>
      match searchInt l with
      | none => .error .attributeError
      | some ionTok =>
        let fr := takeFooter ls3
        let ms := findAllDouble fr.1
        match fr.2 with
        | [] => .error .stopIteration
        | _ :: _ =>
          match pyInt ionTok with
          | .error e => .error e
          | .ok ionN =>
            match pyGet ms 0 with
            | .error e => .error e
            | .ok m0 =>
              match pyFloat m0 with
              | .error e => .error e
              | .ok v0 =>
                match pyGet ms 1 with
                | .error e => .error e
                | .ok m1 =>
                  match pyFloat m1 with
                  | .error e => .error e
                  | .ok v1 =>
                    match pyGet ms 2 with
                    | .error e => .error e
                    | .ok m2 =>
                      match pyFloat m2 with
                      | .error e => .error e
                      | .ok v2 =>
                        match pyGet ms 3 with
                        | .error e => .error e
                        | .ok m3 =>
                          match pyFloat m3 with
                          | .error e => .error e
                          | .ok v3 =>
                            match pyGet ms 4 with
                            | .error e => .error e
                            | .ok m4 =>
                              match pyFloat m4 with
                              | .error e => .error e
                              | .ok v4 =>
                                match pyGet ms 5 with
                                | .error e => .error e
                                | .ok m5 =>
                                  match pyFloat m5 with
                                  | .error e => .error e
                                  | .ok v5 =>
                                    match pyGet ms 6 with
                                    | .error e => .error e
                                    | .ok m6 =>
                                      match pyFloat m6 with
                                      | .error e => .error e
                                      | .ok v6 =>
                                        match pyGet ms 7 with
                                        | .error e => .error e
                                        | .ok m7 =>
                                          match pyFloat m7 with
                                          | .error e => .error e
                                          | .ok v7 =>
                                            match pyGet ms 8 with
                                            | .error e => .error e
                                            | .ok m8 =>
                                              match pyFloat m8 with
                                              | .error e => .error e
                                              | .ok v8 =>
                                                match pyGet ms 9 with
                                                | .error e => .error e
                                                | .ok m9 =>
                                                  match pyFloat m9 with
                                                  | .error e => .error e
                                                  | .ok v9 =>
                                                    match pyGet ms 10 with
                                                    | .error e => .error e
                                                    | .ok m10 =>
                                                      match pyFloat m10 with
                                                      | .error e => .error e
                                                      | .ok v10 =>
                                                        match pyGet ms 11 with
                                                        | .error e => .error e
                                                        | .ok m11 =>
                                                          match pyFloat m11 with
                                                          | .error e => .error e
                                                          | .ok v11 =>
                                                            .ok { ion_number := ionN,
                                                                  displacements := v0,
                                                                  avg_displacements := v1,
                                                                  replacements := v2,
                                                                  avg_replacements := v3,
                                                                  vacancies := v4,
                                                                  avg_vacancies := v5,
                                                                  interstitials := v6,
                                                                  avg_interstitials := v7,
                                                                  sputtered_atoms := v8,
                                                                  avg_sputtered_atoms := v9,
                                                                  transmitted_atoms := v10,
                                                                  avg_transmitted_atoms := v11,
                                                                  collisions := collisions }

/-- The span computation of `Collision.__getitem__` (output.py 340-345):
`start = index[i]`, then `end = filesize` if `i == len(index)` (a dead
branch: a nonnegative `i` that large already failed the first lookup)
else `end = index[i+1]` — both lookups with Python list-index
semantics. -/
def getitemSpan (index : List Nat) (filesize : Nat) (i : Int) :
    Except PyErr (Nat × Nat) :=
  match pyGet index i with
  | .error e => .error e
  | .ok s =>
    if i = (index.length : Int) then .ok (s, filesize)
    else
      match pyGet index (i + 1) with
      | .error e => .error e
      | .ok e2 => .ok (s, e2)

/-- Model of `Collision.__getitem__` (output.py 339-351): compute the
span, read `end - start` bytes from `start` (a negative amount makes
Python's `read` consume to end of file), decode as latin-1 and parse
with `_read_ion`. -/
def collisionGet (file : List Nat) (i : Int) : Except PyErr IonRecord :=
  match getitemSpan (collisionIndex file) file.length i with
  | .error e => .error e
  | .ok se =>
    let ionBytes :=
      if se.1 ≤ se.2 then (file.drop se.1).take (se.2 - se.1) else file.drop se.1
    readIon (latin1Decode ionBytes)

structure CollisionStore where
  index : List Nat
  deriving DecidableEq, Repr

/-- Model of `Collision.__init__` (output.py 190-196): read and discard
the header, then build the index.  The `Except PyErr` layer records the
constructor's exception behaviour: neither `_read_header` (whose loop
simply ends at end of file when the terminator is missing) nor the
index scan can raise, so the result is always `ok`. -/
def collisionInitE (file : List Nat) : Except PyErr CollisionStore :=
  let _hdr := readHeader (uLines (latin1Decode file))
  .ok { index := collisionIndex file }

/-! ### Facts about Python indexing and the `__getitem__` span -/

theorem pyIdx_cases (n : Nat) (i : Int) :
    (i < 0 ∧ pyIdx n i = (n : Int) + i) ∨ (0 ≤ i ∧ pyIdx n i = i) := by
  unfold pyIdx
  split
  · left; constructor <;> omega
  · right; constructor <;> omega

theorem pyGet_error_iff {α : Type} (l : List α) (i : Int) :
    pyGet l i = .error PyErr.indexError ↔
      (i < -(l.length : Int) ∨ (l.length : Int) ≤ i) := by
  unfold pyGet
  by_cases hb : (0 ≤ pyIdx l.length i ∧ pyIdx l.length i < (l.length : Int))
  · rw [if_pos hb]
    cases hg : l.get? (pyIdx l.length i).toNat with
    | none =>
      exfalso
      rw [List.get?_eq_none] at hg
      rcases pyIdx_cases l.length i with ⟨h1, h2⟩ | ⟨h1, h2⟩ <;> rw [h2] at hb <;> omega
    | some a =>
      constructor
      · intro h
        exact absurd h (by simp)
      · intro h
        exfalso
        rcases pyIdx_cases l.length i with ⟨h1, h2⟩ | ⟨h1, h2⟩ <;> rw [h2] at hb <;> omega
  · rw [if_neg hb]
    constructor
    · intro _
      rw [not_and_or] at hb
      rcases pyIdx_cases l.length i with ⟨h1, h2⟩ | ⟨h1, h2⟩ <;> rw [h2] at hb <;> omega
    · intro _
      rfl

theorem pyGet_error_kind {α : Type} {l : List α} {i : Int} {e : PyErr}
    (h : pyGet l i = .error e) : e = .indexError := by
  unfold pyGet at h
  split at h
  · split at h
    · exact absurd h (by simp)
    · exact (Except.error.inj h).symm
  · exact (Except.error.inj h).symm

theorem pyGet_ok_bounds {α : Type} {l : List α} {i : Int} {a : α}
    (h : pyGet l i = .ok a) : -(l.length : Int) ≤ i ∧ i < (l.length : Int) := by
  unfold pyGet at h
  split at h
  · rename_i hb
    rcases pyIdx_cases l.length i with ⟨h1, h2⟩ | ⟨h1, h2⟩ <;> rw [h2] at hb <;>
      constructor <;> omega
  · exact absurd h (by simp)

/-- The `__getitem__` span computation raises `IndexError` exactly when
`i ≥ len(index) - 1` or `i < -len(index)`; in particular the last indexed
offset (`i = len - 1`) is unreachable because `index[i+1]` fails, and a
negative `i` down to `-len` passes the lookups by wrap-around. -/
theorem getitemSpan_error_iff (index : List Nat) (fs : Nat) (i : Int) :
    getitemSpan index fs i = .error PyErr.indexError ↔
      ((index.length : Int) - 1 ≤ i ∨ i < -(index.length : Int)) := by
  unfold getitemSpan
  split
  · rename_i e hg
    have he := pyGet_error_kind hg
    subst he
    rw [pyGet_error_iff] at hg
    constructor
    · intro _
      omega
    · intro _
      rfl
  · rename_i s hg
    have hb := pyGet_ok_bounds hg
    have hne : i ≠ (index.length : Int) := by omega
    rw [if_neg hne]
    split
    · rename_i e2 hg2
      have he2 := pyGet_error_kind hg2
      subst he2
      rw [pyGet_error_iff] at hg2
      constructor
      · intro _
        omega
      · intro _
        rfl
    · rename_i e2 hg2
      have hb2 := pyGet_ok_bounds hg2
      constructor
      · intro hcon
        exact absurd hcon (by simp)
      · intro hcon
        exfalso
        omega

/-! ### Concrete record spans (the delimiter `³` below is `chr(179)`) -/

/-- A span whose footer holds only two float tokens. -/
def spanShortFooter : List Char := chars "-\r\n=\r\n 1\n1.0 2.0\n=\r\nX"

/-- A footer block with the full twelve float tokens. -/
def footer12 : String := "1.0 2.0 3.0 4.0 5.0 6.0 7.0 8.0 9.0 10.0 11.0 12.0"

/-- A span whose single collision line splits into two tokens only. -/
def spanShortLine : List Char :=
  chars ("-\r\n³1³2³\n=\r\n 1\n" ++ footer12 ++ "\n=\r\nX")

/-- A span whose collision line has nine tokens but a struck-atom field
of spaces only (no alphabetic symbol at all). -/
def spanNoAtom : List Char :=
  chars ("-\r\n³1³1.0³2.0³3.0³4.0³5.0³   ³7.0³8.0³\n=\r\n 1\n" ++ footer12 ++ "\n=\r\nX")

/-- A span whose collision line has ten tokens (one more than nine). -/
def spanTenTokens : List Char :=
  chars ("-\r\n³1³1.0³2.0³3.0³4.0³5.0³Si³7.0³8.0³9.9³\n=\r\n 1\n" ++ footer12 ++ "\n=\r\nX")

/-- A span whose struck-atom field is the one-letter symbol `C` with its
atomic-mass annotation. -/
def spanSingleLetter : List Char :=
  chars ("-\r\n³1³1.0³2.0³3.0³4.0³5.0³C 12³7.0³8.0³\n=\r\n 1\n" ++ footer12 ++ "\n=\r\nX")

/-- A header-only file with no `" \n"` terminator line. -/
def fileHdrOnly : List Nat := (chars "Header line one\nSecond\n").map Char.toNat

/-! ### Claim C2 -/

/-- C2 counterexample: on a store with one indexed offset, `record_at(-1)`
does not fail with `IndexError`: Python's negative indexing wraps around,
the span lookups succeed (start = end = the only offset), and the parse of
the empty span fails with `StopIteration` instead.  (`record_at(count)`,
by contrast, does fail with `IndexError`, as the third conjunct shows for
`count = 0`.) -/
theorem c2_negative_index_counterexample :
    collisionGet fileOneMarker (-1) = .error PyErr.stopIteration ∧
      PyErr.stopIteration ≠ PyErr.indexError ∧
      collisionGet fileOneMarker 0 = .error PyErr.indexError := by decide

/-- C2 (amended): the index lookups of `record_at(i)` fail with
`IndexError` exactly when `i ≥ count` (with `count = len(index) - 1`,
so `record_at(count)` fails) or `i < -len(index)`; negative indices from
`-len(index)` to `-1` wrap around Python-style and pass the lookups, so
`record_at(-1)` does not raise `IndexError` (it goes on to read and parse
the wrapped span). -/
theorem c2_index_error_iff (index : List Nat) (fs : Nat) (i : Int) :
    getitemSpan index fs i = .error PyErr.indexError ↔
      ((index.length : Int) - 1 ≤ i ∨ i < -(index.length : Int)) :=
  getitemSpan_error_iff index fs i

/-! ### Claim C6 -/

/-- C6 counterexample: a header-only file with no `" \n"` terminator
line: `_read_header` consumes every line without failing, and the
construction succeeds (with an empty index) instead of raising a
FormatError. -/
theorem c6_no_terminator_counterexample :
    headerStop ∉ uLines (latin1Decode fileHdrOnly) ∧
      readHeader (uLines (latin1Decode fileHdrOnly)) = uLines (latin1Decode fileHdrOnly) ∧
      collisionInitE fileHdrOnly = .ok { index := [] } := by decide

/-- C6 (amended): store construction never fails when the header
terminator is missing: the header loop returns every line once the
stream is exhausted, and the constructor always returns a store. -/
theorem c6_construction_never_fails :
    (∀ ls : List (List Char), headerStop ∉ ls → readHeader ls = ls) ∧
      (∀ file : List Nat, ∃ s, collisionInitE file = .ok s) := by
  constructor
  · intro ls
    induction ls with
    | nil => intro _; rfl
    | cons l ls ih =>
      intro hmem
      have hl : l ≠ headerStop := fun he => hmem (he ▸ List.mem_cons_self l ls)
      rw [readHeader, if_neg hl, ih (fun hm => hmem (List.mem_cons_of_mem l hm))]
  · intro file
    exact ⟨_, rfl⟩

/-- C6 witness: the amended theorem applied to the terminator-free
header-only file. -/
theorem c6_witness :
    readHeader (uLines (latin1Decode fileHdrOnly)) = uLines (latin1Decode fileHdrOnly) :=
  c6_construction_never_fails.1 _ (by decide)

/-! ### Claim C7 -/

def isOkE {α : Type} : Except PyErr α → Bool
  | .ok _ => true
  | .error _ => false

/-- C7 counterexample: a record span whose footer holds only two float
tokens makes `record_at`'s parser fail with the builtin `IndexError`
(from `matches[2]`), not with a FormatError — the module defines no
FormatError class at all. -/
theorem c7_exception_kind_counterexample :
    readIon spanShortFooter = .error PyErr.indexError ∧
      PyErr.indexError ≠ PyErr.formatError := by decide

/-- C7 (amended): malformed record spans abort the whole `record_at`
call with builtin exceptions rather than a dedicated FormatError: a
footer with fewer than twelve float tokens raises `IndexError` (shown at
two tokens); a collision line with fewer than nine post-split tokens
raises `IndexError` from `tokens[8]` (shown at two tokens); a
struck-atom field without an uppercase-lowercase letter pair raises
`AttributeError` (shown at an all-spaces field); and a line with more
than nine tokens is not an error at all — the extra tokens are ignored
(shown at ten tokens). -/
theorem c7_builtin_exception_kinds :
    readIon spanShortFooter = .error PyErr.indexError ∧
      readIon spanShortLine = .error PyErr.indexError ∧
      readIon spanNoAtom = .error PyErr.attributeError ∧
      isOkE (readIon spanTenTokens) = true := by decide

/-! ### Claim C8 -/

/-- No adjacent uppercase-lowercase pair occurs in the string. -/
def noPairB : List Char → Bool
  | [] => true
  | [_] => true
  | c :: d :: rest => !(isUpperAZ c && isLowerAZ d) && noPairB (d :: rest)

theorem noPairB_tail {c : Char} {l : List Char} (h : noPairB (c :: l) = true) :
    noPairB l = true := by
  cases l with
  | nil => rfl
  | cons d rest =>
    unfold noPairB at h
    exact (Bool.and_eq_true_iff.mp h).2

theorem upper_not_lower {c : Char} (h : isUpperAZ c = true) : isLowerAZ c = false := by
  unfold isUpperAZ at h
  unfold isLowerAZ
  rw [Bool.and_eq_true_iff] at h
  obtain ⟨h1, h2⟩ := h
  rw [decide_eq_true_iff] at h2
  rw [Bool.and_eq_false_iff]
  left
  rw [decide_eq_false_iff_not]
  omega

/-- The collisions of a parse result, for stating what atom symbols the
parser extracted. -/
def atomsOf (r : Except PyErr IonRecord) : Option (List (List Char)) :=
  match r with
  | .ok rec0 => some (rec0.collisions.map CollisionEvent.atom)
  | .error _ => none

/-- C8 counterexample: a collision line whose struck-atom field is
`"C 12"` — a one-letter element symbol with atomic-mass annotation —
makes the parser fail with `AttributeError` instead of extracting `C`:
the regex `([A-Z][a-z])` requires an uppercase letter immediately
followed by a lowercase one. -/
theorem c8_single_letter_counterexample :
    searchAZaz (chars "C 12") = none ∧
      readIon spanSingleLetter = .error PyErr.attributeError := by decide

/-- C8 (amended): the struck-atom extraction takes the first substring
consisting of an ASCII uppercase letter immediately followed by an ASCII
lowercase letter (two-letter symbols such as `Si`, wherever they occur in
the field); when the field contains no such pair — in particular for any
one-letter symbol — the search fails and the parser raises
`AttributeError`.  The third conjunct shows the parser storing `Si`
extracted from the field of a full record span. -/
theorem c8_first_upper_lower_pair :
    (∀ (l r : List Char) (c d : Char), noPairB l = true →
        isUpperAZ c = true → isLowerAZ d = true →
        searchAZaz (l ++ c :: d :: r) = some [c, d]) ∧
      (∀ s : List Char, noPairB s = true → searchAZaz s = none) ∧
      atomsOf (readIon spanTenTokens) = some [chars "Si"] := by
  refine ⟨?_, ?_, by decide⟩
  · intro l r c d hl hc hd
    induction l with
    | nil =>
      simp only [List.nil_append, searchAZaz]
      rw [if_pos (by rw [hc, hd]; rfl)]
    | cons x l2 ih =>
      have htail := noPairB_tail hl
      cases l2 with
      | nil =>
        simp only [List.nil_append, List.cons_append, searchAZaz]
        rw [if_neg (by rw [upper_not_lower hc, Bool.and_false]; exact Bool.false_ne_true)]
        have h2 := ih rfl
        rw [List.nil_append] at h2
        exact h2
      | cons y l3 =>
        simp only [List.cons_append, searchAZaz]
        have h1 := (Bool.and_eq_true_iff.mp hl).1
        have hxy : (isUpperAZ x && isLowerAZ y) = false := by
          cases hb : (isUpperAZ x && isLowerAZ y)
          · rfl
          · rw [hb] at h1
            exact absurd h1 (by decide)
        rw [if_neg (by rw [hxy]; exact Bool.false_ne_true)]
        have h2 := ih htail
        rw [List.cons_append] at h2
        exact h2
  · intro s
    induction s with
    | nil => intro _; rfl
    | cons c rest ih =>
      intro hs
      cases rest with
      | nil => rfl
      | cons d rest2 =>
        simp only [searchAZaz]
        have h1 := (Bool.and_eq_true_iff.mp hs).1
        have hcd : (isUpperAZ c && isLowerAZ d) = false := by
          cases hb : (isUpperAZ c && isLowerAZ d)
          · rfl
          · rw [hb] at h1
            exact absurd h1 (by decide)
        rw [if_neg (by rw [hcd]; exact Bool.false_ne_true)]
        exact ih (noPairB_tail hs)

/-- C8 witness: the amended theorem finds `Si` after the mass annotation
`28`. -/
theorem c8_witness :
    searchAZaz (chars "28" ++ 'S' :: 'i' :: chars "/ 28.09") = some ['S', 'i'] :=
  c8_first_upper_lower_pair.1 (chars "28") (chars "/ 28.09") 'S' 'i'
    (by decide) (by decide) (by decide)

/-! ### Claim C9 -/

/-- `mkEvent` stores the four target counts and the cascade it is given,
unchanged, in the event it builds. -/
theorem mkEvent_fields {tokens : List (List Char)} {td tv tr ti : PyNum}
    {cas : Option (List RecoilEntry)} {ev : CollisionEvent}
    (h : mkEvent tokens td tv tr ti cas = .ok ev) :
    ev.target_disp = td ∧ ev.target_vac = tv ∧ ev.target_replac = tr ∧
      ev.target_inter = ti ∧ ev.cascade = cas := by
  unfold mkEvent at h
  iterate 20 (all_goals (try split at h))
  all_goals cases h
  exact ⟨rfl, rfl, rfl, rfl, rfl⟩

theorem readRecoils_suffix :
    ∀ {ls : List (List Char)} {acc cas : List RecoilEntry} {rest : List (List Char)},
      readRecoils ls acc = .ok (cas, rest) → rest <:+ ls := by
  intro ls
  induction ls with
  | nil =>
    intro acc cas rest h
    cases h
    exact List.suffix_refl []
  | cons line tail ih =>
    intro acc cas rest h
    unfold readRecoils at h
    split at h
    · cases h
      exact List.suffix_cons line tail
    · split at h
      · cases h
      · exact (ih h).trans (List.suffix_cons line tail)

/-- `_read_cascade` leaves the stream at a suffix of its input, and the
four counts it returns are exactly the summary parse of a line of the
input. -/
theorem readCascade_spec {ls : List (List Char)}
    {sums : PyNum × PyNum × PyNum × PyNum} {cas : List RecoilEntry}
    {rest : List (List Char)}
    (h : readCascade ls = .ok (sums, cas, rest)) :
    rest <:+ ls ∧ ∃ sline ∈ ls, parseCascadeSummary sline = .ok sums := by
  unfold readCascade at h
  split at h
  · cases h
  · rename_i line rest0
    split at h
    case isTrue heq =>
      split at h
      · cases h
      · rename_i hline rest2
        split at h
        case isTrue hhdr =>
          split at h
          · cases h
          · rename_i p hrec
            split at h
            · cases h
            · rename_i sline rest4 hp2
              split at h
              · cases h
              · rename_i sums0 hsum
                cases h
                have hsuf3 : sline :: rest <:+ rest2 := by
                  have h0 := @readRecoils_suffix rest2 [] p.1 p.2 hrec
                  rw [hp2] at h0
                  exact h0
                have hsuf : rest <:+ line :: hline :: rest2 := by
                  refine ((List.suffix_cons sline rest).trans hsuf3).trans ?_
                  exact (List.suffix_cons hline rest2).trans
                    (List.suffix_cons line (hline :: rest2))
                refine ⟨hsuf, sline, ?_, hsum⟩
                have h1 : sline ∈ sline :: rest := List.mem_cons_self sline rest
                have h2 : sline ∈ rest2 := hsuf3.subset h1
                exact List.mem_cons_of_mem line (List.mem_cons_of_mem hline h2)
        case isFalse hhdr => cases h
    case isFalse heq => cases h

/-- What claim C9 asserts of every parsed collision event: without a
cascade, the three extra counts are the int 0 and `target_disp` is the
float of the ninth post-split token of one of the span's lines; with a
cascade, the four counts are exactly the four floats at indices 2-5 of
the delimiter-split summary line consumed by `_read_cascade`, and the
recoil list is attached. -/
def eventSpec (ls : List (List Char)) (ev : CollisionEvent) : Prop :=
  (ev.cascade = none ∧ ev.target_vac = .intVal 0 ∧ ev.target_replac = .intVal 0 ∧
    ev.target_inter = .intVal 0 ∧
    ∃ line ∈ ls, ninthFloat line = .ok ev.target_disp) ∨
  (∃ cas ls2 rest2, ev.cascade = some cas ∧ ls2 <:+ ls ∧
    readCascade ls2 =
      .ok ((ev.target_disp, ev.target_vac, ev.target_replac, ev.target_inter), cas, rest2) ∧
    ∃ sline ∈ ls2, parseCascadeSummary sline =
      .ok (ev.target_disp, ev.target_vac, ev.target_replac, ev.target_inter))

theorem eventSpec_mono {ls ls2 : List (List Char)} {ev : CollisionEvent}
    (h : eventSpec ls2 ev) (hs : ls2 <:+ ls) : eventSpec ls ev := by
  rcases h with ⟨h1, h2, h3, h4, line, hmem, hline⟩ | ⟨cas, ls3, rest2, h1, h2, h3, h4⟩
  · exact Or.inl ⟨h1, h2, h3, h4, line, hs.subset hmem, hline⟩
  · exact Or.inr ⟨cas, ls3, rest2, h1, h2.trans hs, h3, h4⟩

theorem readCollisions_events :
    ∀ {fuel : Nat} {ls : List (List Char)} {acc res : List CollisionEvent}
      {rest : List (List Char)},
      readCollisions fuel ls acc = .ok (res, rest) →
      ∀ ev ∈ res, ev ∈ acc ∨ eventSpec ls ev := by
  intro fuel
  induction fuel with
  | zero =>
    intro ls acc res rest h
    cases h
  | succ fuel ih =>
    intro ls acc res rest h
    unfold readCollisions at h
    split at h
    · cases h
      exact fun ev hev => Or.inl hev
    · rename_i line tail
      split at h
      case isTrue heq =>
        cases h
        exact fun ev hev => Or.inl hev
      case isFalse hne =>
        split at h
        · cases h
        · rename_i lastTok hlast
          split at h
          case isTrue hcs =>
            split at h
            · cases h
            · rename_i out hcasc
              split at h
              · cases h
              · rename_i ev0 hmk
                intro ev hev
                have hspec0 : eventSpec (line :: tail) ev0 := by
                  obtain ⟨hd, hv, hr, hi, hcv⟩ := mkEvent_fields hmk
                  refine Or.inr
                    ⟨out.2.1, tail, out.2.2, hcv, List.suffix_cons line tail, ?_, ?_⟩
                  · rw [hd, hv, hr, hi]
                    exact hcasc
                  · obtain ⟨-, sline, hmem, hsum⟩ :=
                      @readCascade_spec tail out.1 out.2.1 out.2.2 hcasc
                    rw [hd, hv, hr, hi]
                    exact ⟨sline, hmem, hsum⟩
                rcases ih h ev hev with hin | hspec
                · rcases List.mem_append.mp hin with hin | hin
                  · exact Or.inl hin
                  · rw [List.mem_singleton] at hin
                    subst hin
                    exact Or.inr hspec0
                · have hsuf : out.2.2 <:+ line :: tail :=
                    (@readCascade_spec tail out.1 out.2.1 out.2.2 hcasc).1.trans
                      (List.suffix_cons line tail)
                  exact Or.inr (eventSpec_mono hspec hsuf)
          case isFalse hcs =>
            split at h
            · cases h
            · rename_i td htd
              split at h
              · cases h
              · rename_i ev0 hmk
                intro ev hev
                have hspec0 : eventSpec (line :: tail) ev0 := by
                  obtain ⟨hd, hv, hr, hi, hcv⟩ := mkEvent_fields hmk
                  refine Or.inl ⟨hcv, hv, hr, hi, line, List.mem_cons_self line tail, ?_⟩
                  rw [hd]
                  exact htd
                rcases ih h ev hev with hin | hspec
                · rcases List.mem_append.mp hin with hin | hin
                  · exact Or.inl hin
                  · rw [List.mem_singleton] at hin
                    subst hin
                    exact Or.inr hspec0
                · exact Or.inr (eventSpec_mono hspec (List.suffix_cons line tail))

/-- C9: for every record span whose collision-event loop succeeds, every
parsed event satisfies the cascade-aggregation contract: an event with an
attached cascade takes its four counts (`target_disp`, `target_vac`,
`target_replac`, `target_inter`) exactly from the floats at indices 2-5
of the delimiter-split cascade summary line consumed by `_read_cascade`
(outer pieces dropped), not from the plain-event ninth field; an event
without a cascade-start marker has `target_vac`, `target_replac` and
`target_inter` equal to the int 0 and `target_disp` equal to the float of
the ninth post-split token of its line. -/
theorem c9_cascade_aggregation (fuel : Nat) (ls : List (List Char))
    (res : List CollisionEvent) (rest : List (List Char))
    (h : readCollisions fuel ls [] = .ok (res, rest)) :
    ∀ ev ∈ res, eventSpec ls ev := by
  intro ev hev
  rcases readCollisions_events h ev hev with hin | hspec
  · exact absurd hin (List.not_mem_nil ev)
  · exact hspec

/-- A collision-event line whose last token is the cascade-start marker. -/
def cascadeLine : List Char :=
  chars "³1³1.0³2.0³3.0³4.0³5.0³Si³7.0³ <== Start of New Cascade  ³"

def cascadeHeaderLine : List Char :=
  chars "  Recoil Atom Energy(eV)   X (A)      Y (A)      Z (A)   Vac Repl Ion Numb 1="

def cascadeSummaryLine : List Char := chars "³a³b³1.5³2.5³3.5³4.5³c³"

/-- A collision-event region with one cascade event (zero recoil lines)
followed by the event-terminating separator. -/
def cascadeLines : List (List Char) :=
  [cascadeLine, chars "=\r", cascadeHeaderLine, chars "=\r", cascadeSummaryLine, chars "=\r"]

/-- The event `readCollisions` parses from `cascadeLines`: its four
target counts are the floats 1.5, 2.5, 3.5, 4.5 of the summary line,
not the event line's ninth field. -/
def cascadeEvent : CollisionEvent :=
  { ion_number := 1, kinetic_energy := .floatLit (chars "1.0"),
    depth := .floatLit (chars "2.0"), lat_y_dist := .floatLit (chars "3.0"),
    lat_z_dist := .floatLit (chars "4.0"), stopping_energy := .floatLit (chars "5.0"),
    atom := chars "Si", recoil_energy := .floatLit (chars "7.0"),
    target_disp := .floatLit (chars "1.5"), target_vac := .floatLit (chars "2.5"),
    target_replac := .floatLit (chars "3.5"), target_inter := .floatLit (chars "4.5"),
    cascade := some [] }

/-- C9 witness: the aggregation theorem applied to the concrete cascade
span, whose parsed event carries the summary line's four floats. -/
theorem c9_witness : eventSpec cascadeLines cascadeEvent :=
  c9_cascade_aggregation 7 cascadeLines [cascadeEvent] [] (by decide)
    cascadeEvent (by decide)
